import Mathlib

/-
Verification development for the inago fleet client (package fleet,
src/fleet/fleet.go).  The Go code is shallowly embedded: remote fetches
become explicit list-valued inputs, the fallible Go functions become
Except-valued Lean functions, and the external collaborators (the Go net
and url packages, the coreos fleet client/schema/unit packages and the
remote fleet scheduler itself) are either parameters of the embedded
functions or small state-transition models written from the spec's
description of the remote service boundary.
-/

namespace Inago

/-- A net.IP value: a byte sequence, or none for the Go nil IP that
net.ParseIP returns on a malformed address string. -/
abbrev IPVal := Option (List Nat)

/-- Embeds schema.Unit (the fields fleet.go uses): name, unit-file option
records (section, name, value), desired state and current state. -/
structure SchemaUnit where
  Name : String
  Options : List (String × String × String)
  DesiredState : String
  CurrentState : String
deriving DecidableEq, Repr

/-- Embeds schema.UnitState: unit name, machine ID and the systemd active
state observed on that machine. -/
structure SchemaUnitState where
  Name : String
  MachineID : String
  SystemdActiveState : String
deriving DecidableEq, Repr

/-- Embeds machine records as returned by Client.Machines(): machine ID and
public IP string. -/
structure Machine where
  ID : String
  PublicIP : String
deriving DecidableEq, Repr

/-- Embeds fleet.MachineStatus: machine ID, resolved IP, systemd state. -/
structure MachineStatus where
  ID : String
  IP : IPVal
  SystemdActive : String
deriving DecidableEq, Repr

/-- Embeds fleet.UnitStatus: current state, desired state and the ordered
per-machine statuses. -/
structure UnitStatus where
  Current : String
  Desired : String
  Machine : List MachineStatus
deriving DecidableEq, Repr

/-- Error classification of the fleet package: the distinguished
unitNotFoundError and ipNotFoundError conditions, configuration errors from
NewFleet, and wrapped collaborator failures (unit-file parse errors, remote
call errors).  maskAny preserves the classification, so it is the identity
in this embedding. -/
inductive FleetError where
  | unitNotFound
  | ipNotFound
  | invalidEndpointHost (host scheme : String)
  | invalidScheme (scheme : String)
  | parseFailed (msg : String)
  | remoteFailed (msg : String)
deriving DecidableEq, Repr

/-- The desired-state constant unitStateInactive of fleet.go. -/
def unitStateInactive : String := "inactive"

/-- The desired-state constant unitStateLoaded of fleet.go. -/
def unitStateLoaded : String := "loaded"

/-- The desired-state constant unitStateLaunched of fleet.go. -/
def unitStateLaunched : String := "launched"

/-- The parts of url.URL that NewFleet reads and rewrites. -/
structure URLRec where
  Scheme : String
  Host : String
  Path : String
deriving DecidableEq, Repr

/-- A network/address pair as passed to and produced by a dial function. -/
structure DialTarget where
  network : String
  address : String
deriving DecidableEq, Repr

/-- The transport selected by NewFleet: either a custom transport whose
dial function is the bound closure from fleet.go, or the standard
http.DefaultTransport. -/
inductive Transport where
  | custom (dial : String → String → DialTarget)
  | defaultTransport

/-- What a transport dials for a given network/address request: the custom
transport applies its bound dial function, the default transport dials the
requested pair itself. -/
def Transport.dialOn (t : Transport) (network address : String) : DialTarget :=
  match t with
  | .custom dial => dial network address
  | .defaultTransport => { network := network, address := address }

/-- Embeds the endpoint-resolution part of fleet.NewFleet: scheme switch,
host validation for socket schemes, endpoint rewriting and transport
selection.  The Go dial closure `func(s, t string) { return net.Dial("unix",
sockPath) }` becomes a Lean closure returning the dialed target; the
subsequent client.NewHTTPClient call is an external collaborator and is not
part of the resolution being verified. -/
def NewFleet (endpoint : URLRec) : Except FleetError (Transport × URLRec) :=
  if endpoint.Scheme == "unix" || endpoint.Scheme == "file" then
    if endpoint.Host.length > 0 then
      .error (.invalidEndpointHost endpoint.Host endpoint.Scheme)
    else
      let sockPath := endpoint.Path
      let resolved : URLRec := { Scheme := "http", Host := "domain-sock", Path := "" }
      .ok (.custom (fun _ _ => { network := "unix", address := sockPath }), resolved)
  else if endpoint.Scheme == "http" || endpoint.Scheme == "https" then
    .ok (.defaultTransport, endpoint)
  else
    .error (.invalidScheme endpoint.Scheme)

/-- Embeds the body of fleet.ipFromUnitState after the Client.Machines()
fetch: scan the machine collection for the first record whose ID equals the
unit state's machine ID; parse its public IP on a hit, fail with
ipNotFoundError otherwise.  parseIP stands for the external net.ParseIP. -/
def ipFromUnitState (machineStates : List Machine) (parseIP : String → IPVal)
    (unitState : SchemaUnitState) : Except FleetError IPVal :=
  match machineStates.find? (fun ms => unitState.MachineID == ms.ID) with
  | some ms => .ok (parseIP ms.PublicIP)
  | none => .error .ipNotFound

/-- Embeds the aggregation loop of fleet.GetStatus over the matching unit
states.  Each iteration performs its own Client.Machines() fetch, so the
loop receives the stream of fetch results: iteration k sees fetch k.  The
loop aborts on the first ipFromUnitState error and otherwise appends one
MachineStatus per unit state, in order. -/
def collectMachineStatus (fetch : Nat → List Machine) (parseIP : String → IPVal) :
    Nat → List SchemaUnitState → Except FleetError (List MachineStatus)
  | _, [] => .ok []
  | k, us :: rest =>
    match ipFromUnitState (fetch k) parseIP us with
    | .error e => .error e
    | .ok ip =>
      match collectMachineStatus fetch parseIP (k + 1) rest with
      | .error e => .error e
      | .ok tail =>
        .ok ({ ID := us.MachineID, IP := ip, SystemdActive := us.SystemdActiveState } :: tail)

/-- Embeds fleet.GetStatus given successful Units() and UnitStates()
fetches: find the first unit with the requested name (unitNotFoundError if
none), filter the unit states to those matching the name in fetch order,
and aggregate, with the k-th machine-collection fetch of the loop given by
fetch k. -/
def GetStatusAux (units : List SchemaUnit) (unitStates : List SchemaUnitState)
    (fetch : Nat → List Machine) (parseIP : String → IPVal) (name : String) :
    Except FleetError UnitStatus :=
  match units.find? (fun fu => name == fu.Name) with
  | none => .error .unitNotFound
  | some fu =>
    match collectMachineStatus fetch parseIP 0
        (unitStates.filter (fun fus => name == fus.Name)) with
    | .error e => .error e
    | .ok ms => .ok { Current := fu.CurrentState, Desired := fu.DesiredState, Machine := ms }

/-- fleet.GetStatus against a remote whose machine collection does not
change between the per-unit-state fetches: every fetch returns the same
machines list. -/
def GetStatus (units : List SchemaUnit) (unitStates : List SchemaUnitState)
    (machines : List Machine) (parseIP : String → IPVal) (name : String) :
    Except FleetError UnitStatus :=
  GetStatusAux units unitStates (fun _ => machines) parseIP name

/-- The IP a matching unit state resolves to under a fixed machine
collection: the parsed public IP of the first machine record sharing its
machine ID, or none when no record matches. -/
def resolvedIP (machines : List Machine) (parseIP : String → IPVal)
    (us : SchemaUnitState) : IPVal :=
  match machines.find? (fun ms => us.MachineID == ms.ID) with
  | some m => parseIP m.PublicIP
  | none => none

/-- The aggregation loop under the spec's optimized variant: the machine
collection is fetched once per GetStatus call and reused for every matching
unit state.  Written from the spec's words for the refinement comparison. -/
def collectMachineStatusOnce (machines : List Machine) (parseIP : String → IPVal) :
    List SchemaUnitState → Except FleetError (List MachineStatus)
  | [] => .ok []
  | us :: rest =>
    match ipFromUnitState machines parseIP us with
    | .error e => .error e
    | .ok ip =>
      match collectMachineStatusOnce machines parseIP rest with
      | .error e => .error e
      | .ok tail =>
        .ok ({ ID := us.MachineID, IP := ip, SystemdActive := us.SystemdActiveState } :: tail)

/-- The spec's optimized GetStatus variant: identical join, but a single
machine-collection fetch whose result is reused across the loop. -/
def GetStatusOnce (units : List SchemaUnit) (unitStates : List SchemaUnitState)
    (machines : List Machine) (parseIP : String → IPVal) (name : String) :
    Except FleetError UnitStatus :=
  match units.find? (fun fu => name == fu.Name) with
  | none => .error .unitNotFound
  | some fu =>
    match collectMachineStatusOnce machines parseIP
        (unitStates.filter (fun fus => name == fus.Name)) with
    | .error e => .error e
    | .ok ms => .ok { Current := fu.CurrentState, Desired := fu.DesiredState, Machine := ms }

/-- A request issued to the remote scheduler by a lifecycle verb. -/
inductive RemoteCall where
  | createUnit (u : SchemaUnit)
  | setUnitTargetState (name state : String)
  | destroyUnit (name : String)
deriving DecidableEq, Repr

/-- The remote scheduler as seen through the lifecycle verbs: its unit
collection, plus the log of requests issued to it. -/
structure Remote where
  units : List SchemaUnit
  calls : List RemoteCall
deriving DecidableEq, Repr

/-- Modelled from the spec: the remote create-unit(name, option-records,
desired-state) operation behind Client.CreateUnit — records the request and
adds the unit to the remote collection (the remote service is authoritative
about name uniqueness; no local validation). -/
def CreateUnit (r : Remote) (u : SchemaUnit) : Remote × Except FleetError Unit :=
  ({ units := r.units ++ [u], calls := r.calls ++ [.createUnit u] }, .ok ())

/-- Modelled from the spec: the remote set-unit-desired-state(name, state)
operation behind Client.SetUnitTargetState — records the request; rewrites
the named unit's desired state in place, or fails with a generic remote
error if no unit by that name exists remotely. -/
def SetUnitTargetState (r : Remote) (name state : String) : Remote × Except FleetError Unit :=
  if r.units.any (fun u => u.Name == name) then
    ({ units := r.units.map (fun u =>
          if u.Name == name then { u with DesiredState := state } else u),
       calls := r.calls ++ [.setUnitTargetState name state] }, .ok ())
  else
    ({ r with calls := r.calls ++ [.setUnitTargetState name state] },
     .error (.remoteFailed "unit does not exist"))

/-- Modelled from the spec: the remote delete-unit(name) operation behind
Client.DestroyUnit — records the request and removes the unit record
entirely. -/
def DestroyUnit (r : Remote) (name : String) : Remote × Except FleetError Unit :=
  ({ units := r.units.filter (fun u => u.Name != name),
     calls := r.calls ++ [.destroyUnit name] }, .ok ())

/-- Embeds fleet.Submit: parse the content as a unit file (the external
unit.NewUnitFile, a parameter here), returning the wrapped parse error on
failure before any remote request; on success map the unit file to schema
options (the external schema.MapUnitFileToSchemaUnitOptions, a parameter)
and issue the create-unit request with desired state loaded. -/
def Submit {α : Type} (parseUnitFile : String → Except String α)
    (mapOptions : α → List (String × String × String))
    (r : Remote) (name content : String) : Remote × Except FleetError Unit :=
  match parseUnitFile content with
  | .error e => (r, .error (.parseFailed e))
  | .ok unitFile =>
    CreateUnit r
      { Name := name, Options := mapOptions unitFile,
        DesiredState := "loaded", CurrentState := "" }

/-- Embeds fleet.Start: a desired-state write of unitStateLaunched. -/
def Start (r : Remote) (name : String) : Remote × Except FleetError Unit :=
  SetUnitTargetState r name unitStateLaunched

/-- Embeds fleet.Stop: a desired-state write of unitStateLoaded. -/
def Stop (r : Remote) (name : String) : Remote × Except FleetError Unit :=
  SetUnitTargetState r name unitStateLoaded

/-- Embeds fleet.Destroy: a delete-unit request. -/
def Destroy (r : Remote) (name : String) : Remote × Except FleetError Unit :=
  DestroyUnit r name

/- Helper lemmas about the aggregation loop. -/

lemma collectMachineStatus_ok_of_all_found (machines : List Machine)
    (parseIP : String → IPVal) :
    ∀ (l : List SchemaUnitState) (k : Nat),
      (∀ us ∈ l, (machines.find? (fun ms => us.MachineID == ms.ID)).isSome) →
      collectMachineStatus (fun _ => machines) parseIP k l =
        .ok (l.map (fun us =>
          { ID := us.MachineID, IP := resolvedIP machines parseIP us,
            SystemdActive := us.SystemdActiveState })) := by
  intro l
  induction l with
  | nil => intro k _; rfl
  | cons us rest ih =>
    intro k hall
    have hhead := hall us (List.mem_cons_self us rest)
    obtain ⟨m, hm⟩ := Option.isSome_iff_exists.mp hhead
    have htail := ih (k + 1) (fun x hx => hall x (List.mem_cons_of_mem us hx))
    simp only [collectMachineStatus, ipFromUnitState, hm, htail, resolvedIP, List.map_cons]

lemma collectMachineStatus_err_of_missing (machines : List Machine)
    (parseIP : String → IPVal) :
    ∀ (l : List SchemaUnitState) (k : Nat),
      (∃ us ∈ l, machines.find? (fun ms => us.MachineID == ms.ID) = none) →
      collectMachineStatus (fun _ => machines) parseIP k l = .error .ipNotFound := by
  intro l
  induction l with
  | nil => intro k h; obtain ⟨us, hus, _⟩ := h; exact absurd hus (List.not_mem_nil us)
  | cons us rest ih =>
    intro k h
    obtain ⟨x, hx, hxnone⟩ := h
    rcases List.mem_cons.mp hx with hx | hx
    · subst hx
      simp only [collectMachineStatus, ipFromUnitState, hxnone]
    · cases hfind : machines.find? (fun ms => us.MachineID == ms.ID) with
      | none => simp only [collectMachineStatus, ipFromUnitState, hfind]
      | some m =>
        have htail := ih (k + 1) ⟨x, hx, hxnone⟩
        simp only [collectMachineStatus, ipFromUnitState, hfind, htail]

lemma getStatus_of_find (units : List SchemaUnit) (unitStates : List SchemaUnitState)
    (machines : List Machine) (parseIP : String → IPVal) (name : String)
    (fu : SchemaUnit) (hfind : units.find? (fun u => name == u.Name) = some fu) :
    GetStatus units unitStates machines parseIP name =
      match collectMachineStatus (fun _ => machines) parseIP 0
          (unitStates.filter (fun fus => name == fus.Name)) with
      | .error e => .error e
      | .ok ms =>
        .ok { Current := fu.CurrentState, Desired := fu.DesiredState, Machine := ms } := by
  simp only [GetStatus, GetStatusAux, hfind]

/- Claim theorems. -/

/-- C1: when the requested name is found in the unit collection and exactly
two unit-state records match it, GetStatus returns a status whose Machine
list has the two entries in fetch order, each carrying the parsed public IP
of the machine record sharing its machine ID, with Current and Desired
copied from the matched unit record. -/
theorem getStatus_two_unit_states (units : List SchemaUnit)
    (unitStates : List SchemaUnitState) (machines : List Machine)
    (parseIP : String → IPVal) (name : String) (fu : SchemaUnit)
    (s1 s2 : SchemaUnitState) (m1 m2 : Machine)
    (hfind : units.find? (fun u => name == u.Name) = some fu)
    (hfilter : unitStates.filter (fun fus => name == fus.Name) = [s1, s2])
    (hm1 : machines.find? (fun ms => s1.MachineID == ms.ID) = some m1)
    (hm2 : machines.find? (fun ms => s2.MachineID == ms.ID) = some m2) :
    GetStatus units unitStates machines parseIP name =
      .ok { Current := fu.CurrentState, Desired := fu.DesiredState,
            Machine := [
              { ID := s1.MachineID, IP := parseIP m1.PublicIP,
                SystemdActive := s1.SystemdActiveState },
              { ID := s2.MachineID, IP := parseIP m2.PublicIP,
                SystemdActive := s2.SystemdActiveState }] } := by
  rw [getStatus_of_find units unitStates machines parseIP name fu hfind, hfilter]
  simp only [collectMachineStatus, ipFromUnitState, hm1, hm2]

/-- C1 witness: a concrete cluster with one unit scheduled on two machines. -/
theorem getStatus_two_unit_states_witness :
    GetStatus
      [{ Name := "u1", Options := [], DesiredState := "launched", CurrentState := "active" }]
      [{ Name := "u1", MachineID := "m1", SystemdActiveState := "active" },
       { Name := "u1", MachineID := "m2", SystemdActiveState := "running" }]
      [{ ID := "m1", PublicIP := "10.0.0.1" }, { ID := "m2", PublicIP := "10.0.0.2" }]
      (fun s => some [s.length]) "u1" =
      .ok { Current := "active", Desired := "launched",
            Machine := [
              { ID := "m1", IP := some [8], SystemdActive := "active" },
              { ID := "m2", IP := some [8], SystemdActive := "running" }] } :=
  getStatus_two_unit_states _ _ _ _ _
    { Name := "u1", Options := [], DesiredState := "launched", CurrentState := "active" }
    { Name := "u1", MachineID := "m1", SystemdActiveState := "active" }
    { Name := "u1", MachineID := "m2", SystemdActiveState := "running" }
    { ID := "m1", PublicIP := "10.0.0.1" } { ID := "m2", PublicIP := "10.0.0.2" }
    (by decide) (by decide) (by decide) (by decide)

/-- C2: when no unit in the fetched unit collection carries the requested
name, GetStatus fails with unitNotFound, whatever the unit-state and
machine collections hold. -/
theorem getStatus_unitNotFound (units : List SchemaUnit)
    (unitStates : List SchemaUnitState) (machines : List Machine)
    (parseIP : String → IPVal) (name : String)
    (habsent : ∀ u ∈ units, u.Name ≠ name) :
    GetStatus units unitStates machines parseIP name = .error .unitNotFound := by
  have hnone : units.find? (fun u => name == u.Name) = none := by
    rw [List.find?_eq_none]
    intro u hu
    simp only [beq_iff_eq]
    exact fun h => habsent u hu h.symm
  simp only [GetStatus, GetStatusAux, hnone]

/-- C2 witness: a unit collection without the requested name, with nonempty
unit-state and machine collections. -/
theorem getStatus_unitNotFound_witness :
    GetStatus
      [{ Name := "other", Options := [], DesiredState := "loaded", CurrentState := "active" }]
      [{ Name := "u1", MachineID := "m1", SystemdActiveState := "active" }]
      [{ ID := "m1", PublicIP := "10.0.0.1" }]
      (fun _ => none) "u1" = .error .unitNotFound :=
  getStatus_unitNotFound _ _ _ _ _ (by decide)

lemma collectMachineStatus_cons_ok_ne_nil (fetch : Nat → List Machine)
    (parseIP : String → IPVal) (k : Nat) (us : SchemaUnitState)
    (rest : List SchemaUnitState) (ms : List MachineStatus)
    (h : collectMachineStatus fetch parseIP k (us :: rest) = .ok ms) : ms ≠ [] := by
  simp only [collectMachineStatus] at h
  cases hip : ipFromUnitState (fetch k) parseIP us with
  | error e => rw [hip] at h; exact absurd h (by simp)
  | ok ip =>
    rw [hip] at h
    cases hrest : collectMachineStatus fetch parseIP (k + 1) rest with
    | error e => rw [hrest] at h; exact absurd h (by simp)
    | ok tail =>
      rw [hrest] at h
      cases h
      exact List.cons_ne_nil _ _

/-- C3 counterexample: with an empty unit collection, a unit state matching
the requested name and referencing machine m1, and an empty machine
collection, GetStatus fails with unitNotFound, not ipNotFound — the claim's
quantification over every input with an unresolvable matching unit state is
too broad. -/
theorem getStatus_ipNotFound_counterexample :
    GetStatus []
      [{ Name := "u1", MachineID := "m1", SystemdActiveState := "active" }] []
      (fun _ => none) "u1" = .error .unitNotFound ∧
    (Except.error FleetError.unitNotFound : Except FleetError UnitStatus) ≠
      .error .ipNotFound := by
  exact ⟨rfl, fun h => absurd (Except.error.inj h) (by decide)⟩

/-- C3 amended: provided the requested name is present in the fetched unit
collection, any matching unit state whose machine ID matches no machine
record makes GetStatus fail with ipNotFound, with no partial UnitStatus,
even when other matching unit states resolve. -/
theorem getStatus_ipNotFound_of_missing_machine (units : List SchemaUnit)
    (unitStates : List SchemaUnitState) (machines : List Machine)
    (parseIP : String → IPVal) (name : String) (fu : SchemaUnit)
    (hfind : units.find? (fun u => name == u.Name) = some fu)
    (hmiss : ∃ us ∈ unitStates.filter (fun fus => name == fus.Name),
      machines.find? (fun ms => us.MachineID == ms.ID) = none) :
    GetStatus units unitStates machines parseIP name = .error .ipNotFound := by
  rw [getStatus_of_find units unitStates machines parseIP name fu hfind]
  rw [collectMachineStatus_err_of_missing machines parseIP _ 0 hmiss]

/-- C3 witness: the first matching unit state resolves to machine m1, the
second references the absent machine m2, and the whole call fails. -/
theorem getStatus_ipNotFound_of_missing_machine_witness :
    GetStatus
      [{ Name := "u1", Options := [], DesiredState := "launched", CurrentState := "active" }]
      [{ Name := "u1", MachineID := "m1", SystemdActiveState := "active" },
       { Name := "u1", MachineID := "m2", SystemdActiveState := "active" }]
      [{ ID := "m1", PublicIP := "10.0.0.1" }]
      (fun s => some [s.length]) "u1" = .error .ipNotFound :=
  getStatus_ipNotFound_of_missing_machine _ _ _ _ _
    { Name := "u1", Options := [], DesiredState := "launched", CurrentState := "active" }
    (by decide)
    ⟨{ Name := "u1", MachineID := "m2", SystemdActiveState := "active" },
      by decide, by decide⟩

/-- C4: given the requested name is found in the unit collection, GetStatus
returns the status with Current and Desired copied from the unit and an
empty Machine list when no unit state matches the name, and conversely any
successful status with an empty Machine list can only arise when no unit
state matches the name. -/
theorem getStatus_empty_machine_iff (units : List SchemaUnit)
    (unitStates : List SchemaUnitState) (machines : List Machine)
    (parseIP : String → IPVal) (name : String) (fu : SchemaUnit)
    (hfind : units.find? (fun u => name == u.Name) = some fu) :
    (unitStates.filter (fun fus => name == fus.Name) = [] →
      GetStatus units unitStates machines parseIP name =
        .ok { Current := fu.CurrentState, Desired := fu.DesiredState, Machine := [] }) ∧
    (∀ st, GetStatus units unitStates machines parseIP name = .ok st →
      st.Machine = [] → unitStates.filter (fun fus => name == fus.Name) = []) := by
  constructor
  · intro hfilter
    rw [getStatus_of_find units unitStates machines parseIP name fu hfind, hfilter]
    rfl
  · intro st hok hmach
    rw [getStatus_of_find units unitStates machines parseIP name fu hfind] at hok
    cases hcoll : collectMachineStatus (fun _ => machines) parseIP 0
        (unitStates.filter (fun fus => name == fus.Name)) with
    | error e => rw [hcoll] at hok; exact absurd hok (by simp)
    | ok ms =>
      rw [hcoll] at hok
      cases hok
      cases hmatch : unitStates.filter (fun fus => name == fus.Name) with
      | nil => rfl
      | cons us rest =>
        rw [hmatch] at hcoll
        exact absurd hmach
          (collectMachineStatus_cons_ok_ne_nil (fun _ => machines) parseIP 0 us rest _ hcoll)

/-- C4 witness: a known unit that no unit state mentions yields a status
with an empty Machine list, and the converse direction instantiated at that
same successful call. -/
theorem getStatus_empty_machine_iff_witness :
    GetStatus
      [{ Name := "u1", Options := [], DesiredState := "loaded", CurrentState := "inactive" }]
      [{ Name := "other", MachineID := "m1", SystemdActiveState := "active" }]
      [{ ID := "m1", PublicIP := "10.0.0.1" }]
      (fun _ => none) "u1" =
      .ok { Current := "inactive", Desired := "loaded", Machine := [] } :=
  (getStatus_empty_machine_iff _ _ _ _ _
    { Name := "u1", Options := [], DesiredState := "loaded", CurrentState := "inactive" }
    (by decide)).1 (by decide)

/-- C10: whenever the requested name is found and every matching unit state
joins to some machine record, GetStatus succeeds, and each entry's IP is
exactly parseIP applied to the joined machine's public-IP string.  The
statement quantifies over every parseIP, including any that returns none
(the nil net.IP for a malformed address), so a malformed machine IP can
never turn into a failure: the entry simply carries the nil IP. -/
theorem getStatus_succeeds_with_parsed_ips (units : List SchemaUnit)
    (unitStates : List SchemaUnitState) (machines : List Machine)
    (parseIP : String → IPVal) (name : String) (fu : SchemaUnit)
    (hfind : units.find? (fun u => name == u.Name) = some fu)
    (hall : ∀ us ∈ unitStates.filter (fun fus => name == fus.Name),
      (machines.find? (fun ms => us.MachineID == ms.ID)).isSome) :
    GetStatus units unitStates machines parseIP name =
      .ok { Current := fu.CurrentState, Desired := fu.DesiredState,
            Machine := (unitStates.filter (fun fus => name == fus.Name)).map (fun us =>
              { ID := us.MachineID, IP := resolvedIP machines parseIP us,
                SystemdActive := us.SystemdActiveState }) } := by
  rw [getStatus_of_find units unitStates machines parseIP name fu hfind]
  rw [collectMachineStatus_ok_of_all_found machines parseIP _ 0 hall]

/-- C10 witness: parseIP rejects every address (returns the nil IP), the
machine join succeeds, and GetStatus still returns a successful status with
a nil IP in the entry. -/
theorem getStatus_succeeds_with_parsed_ips_witness :
    GetStatus
      [{ Name := "u1", Options := [], DesiredState := "launched", CurrentState := "active" }]
      [{ Name := "u1", MachineID := "m1", SystemdActiveState := "active" }]
      [{ ID := "m1", PublicIP := "not-an-ip" }]
      (fun _ => none) "u1" =
      .ok { Current := "active", Desired := "launched",
            Machine := [{ ID := "m1", IP := none, SystemdActive := "active" }] } :=
  getStatus_succeeds_with_parsed_ips _ _ _ _ _
    { Name := "u1", Options := [], DesiredState := "launched", CurrentState := "active" }
    (by decide) (by decide)

lemma collectMachineStatus_const_fetch (fetch : Nat → List Machine)
    (parseIP : String → IPVal) (hconst : ∀ i, fetch i = fetch 0) :
    ∀ (l : List SchemaUnitState) (k : Nat),
      collectMachineStatus fetch parseIP k l =
        collectMachineStatusOnce (fetch 0) parseIP l := by
  intro l
  induction l with
  | nil => intro k; rfl
  | cons us rest ih =>
    intro k
    simp only [collectMachineStatus, collectMachineStatusOnce, hconst k, ih (k + 1)]

/-- C8: when every per-unit-state machine fetch returns the same collection
as the first one (the remote machine collection does not change between
fetches), the naive GetStatus, which fetches per matching unit state, is
observably equal — same UnitStatus or same error — to the optimized variant
that fetches the machine collection once and reuses it. -/
theorem getStatusAux_eq_getStatusOnce (units : List SchemaUnit)
    (unitStates : List SchemaUnitState) (fetch : Nat → List Machine)
    (parseIP : String → IPVal) (name : String)
    (hconst : ∀ i, fetch i = fetch 0) :
    GetStatusAux units unitStates fetch parseIP name =
      GetStatusOnce units unitStates (fetch 0) parseIP name := by
  unfold GetStatusAux GetStatusOnce
  rw [collectMachineStatus_const_fetch fetch parseIP hconst]

/-- C8 witness: a concrete unchanging fetch stream on a cluster with one
unit on one machine; naive and optimized agree. -/
theorem getStatusAux_eq_getStatusOnce_witness :
    GetStatusAux
      [{ Name := "u1", Options := [], DesiredState := "launched", CurrentState := "active" }]
      [{ Name := "u1", MachineID := "m1", SystemdActiveState := "active" }]
      (fun _ => [{ ID := "m1", PublicIP := "10.0.0.1" }])
      (fun s => some [s.length]) "u1" =
      GetStatusOnce
        [{ Name := "u1", Options := [], DesiredState := "launched", CurrentState := "active" }]
        [{ Name := "u1", MachineID := "m1", SystemdActiveState := "active" }]
        [{ ID := "m1", PublicIP := "10.0.0.1" }]
        (fun s => some [s.length]) "u1" :=
  getStatusAux_eq_getStatusOnce _ _ _ _ _ (fun _ => rfl)

/-- C7: after a successful Start followed by a successful Stop of the same
unit name, every remote unit record carrying that name has desired state
loaded, which is not inactive.  Start writes unitStateLaunched, Stop then
writes unitStateLoaded. -/
theorem start_then_stop_leaves_loaded (r r1 r2 : Remote) (name : String)
    (_hstart : Start r name = (r1, .ok ()))
    (hstop : Stop r1 name = (r2, .ok ()))
    (u : SchemaUnit) (hu : u ∈ r2.units) (hname : u.Name = name) :
    u.DesiredState = unitStateLoaded ∧ u.DesiredState ≠ unitStateInactive := by
  unfold Stop SetUnitTargetState at hstop
  by_cases hc : r1.units.any (fun v => v.Name == name)
  · rw [if_pos hc] at hstop
    have hr2 : r2.units = r1.units.map (fun v =>
        if v.Name == name then { v with DesiredState := unitStateLoaded } else v) := by
      cases hstop
      rfl
    rw [hr2] at hu
    obtain ⟨v, _, hv⟩ := List.mem_map.mp hu
    by_cases hvn : v.Name == name
    · rw [if_pos hvn] at hv
      rw [← hv]
      refine ⟨rfl, ?_⟩
      show unitStateLoaded ≠ unitStateInactive
      decide
    · rw [if_neg hvn] at hv
      rw [← hv] at hname
      exact absurd (beq_iff_eq.mpr hname) hvn
  · rw [if_neg hc] at hstop
    cases hstop

/-- C7 witness: a one-unit cluster taken through Start and Stop; the unit
ends at desired state loaded. -/
theorem start_then_stop_leaves_loaded_witness :
    ({ Name := "u1", Options := [], DesiredState := "loaded", CurrentState := "" }
        : SchemaUnit).DesiredState = unitStateLoaded ∧
    ({ Name := "u1", Options := [], DesiredState := "loaded", CurrentState := "" }
        : SchemaUnit).DesiredState ≠ unitStateInactive :=
  start_then_stop_leaves_loaded
    { units := [{ Name := "u1", Options := [], DesiredState := "inactive", CurrentState := "" }],
      calls := [] }
    { units := [{ Name := "u1", Options := [], DesiredState := "launched", CurrentState := "" }],
      calls := [.setUnitTargetState "u1" "launched"] }
    { units := [{ Name := "u1", Options := [], DesiredState := "loaded", CurrentState := "" }],
      calls := [.setUnitTargetState "u1" "launched", .setUnitTargetState "u1" "loaded"] }
    "u1" rfl rfl
    { Name := "u1", Options := [], DesiredState := "loaded", CurrentState := "" }
    (List.mem_singleton.mpr rfl) rfl

/-- C9: when the unit-file parser rejects the content, Submit returns the
wrapped parse error and the remote is untouched: the returned Remote is the
input one, so its unit collection and its request log are unchanged, and in
particular no create-unit request was issued. -/
theorem submit_parse_error_no_remote_call {α : Type}
    (parseUnitFile : String → Except String α)
    (mapOptions : α → List (String × String × String))
    (r : Remote) (name content : String) (e : String)
    (hparse : parseUnitFile content = .error e) :
    Submit parseUnitFile mapOptions r name content = (r, .error (.parseFailed e)) := by
  simp only [Submit, hparse]

/-- C9 witness: a parser that rejects everything; Submit leaves the remote
record and its call log unchanged. -/
theorem submit_parse_error_no_remote_call_witness :
    Submit (fun _ => (.error "bad unit file" : Except String Unit)) (fun _ => [])
      { units := [], calls := [] } "u1" "[Broken" =
      ({ units := [], calls := [] }, .error (.parseFailed "bad unit file")) :=
  submit_parse_error_no_remote_call _ _ _ _ _ _ rfl

/-- C5: an endpoint with scheme unix or file and a non-empty host makes
NewFleet fail with the configuration error naming the host and scheme; no
transport is constructed, so nothing can be dialed. -/
theorem newFleet_socket_scheme_host_fails (endpoint : URLRec)
    (hscheme : endpoint.Scheme = "unix" ∨ endpoint.Scheme = "file")
    (hhost : 0 < endpoint.Host.length) :
    NewFleet endpoint = .error (.invalidEndpointHost endpoint.Host endpoint.Scheme) := by
  rcases hscheme with h | h <;> simp [NewFleet, h, hhost]

/-- C5 witness: the misconfiguration from fleet.go's comment, where
unix://var/run/fleet.sock parses with host var. -/
theorem newFleet_socket_scheme_host_fails_witness :
    NewFleet { Scheme := "unix", Host := "var", Path := "/run/fleet.sock" } =
      .error (.invalidEndpointHost "var" "unix") :=
  newFleet_socket_scheme_host_fails _ (Or.inl rfl) (by decide)

/-- C6: an endpoint with scheme unix or file and an empty host resolves to
a transport whose dial function returns the unix-domain target at the
endpoint's original path for every network/address pair it is asked for,
and the resolved endpoint has an empty path, scheme http and the
placeholder host domain-sock. -/
theorem newFleet_socket_scheme_dials_path (endpoint : URLRec)
    (hscheme : endpoint.Scheme = "unix" ∨ endpoint.Scheme = "file")
    (hhost : endpoint.Host = "") :
    ∃ t : Transport,
      NewFleet endpoint =
        .ok (t, { Scheme := "http", Host := "domain-sock", Path := "" }) ∧
      ∀ network address : String,
        t.dialOn network address = { network := "unix", address := endpoint.Path } := by
  refine ⟨.custom (fun _ _ => { network := "unix", address := endpoint.Path }), ?_, ?_⟩
  · rcases hscheme with h | h <;> simp [NewFleet, h, hhost]
  · intro network address
    rfl

/-- C6 witness: the default endpoint file:///var/run/fleet.sock; the dial
target is the socket path whatever pair the HTTP layer requests. -/
theorem newFleet_socket_scheme_dials_path_witness :
    ∃ t : Transport,
      NewFleet { Scheme := "file", Host := "", Path := "/var/run/fleet.sock" } =
        .ok (t, { Scheme := "http", Host := "domain-sock", Path := "" }) ∧
      ∀ network address : String,
        t.dialOn network address =
          { network := "unix", address := "/var/run/fleet.sock" } :=
  newFleet_socket_scheme_dials_path _ (Or.inr rfl) rfl

end Inago
